import Mathlib

/-!
Verification of the CDELFI inference driver (delfi fork).

The development shallowly embeds `src/delfi/inference/CDELFI.py`:

* `lossMethod` embeds `CDELFI.loss` (lines 52-70), with the result of the
  external regularizer `svi_kl_zero` abstracted as a rational parameter and the
  Python local variable `kl` modelled as an `Option` (reading it unbound is an
  `UnboundLocalError`, embedded as `Except.error`).
* `surgery` embeds the final-round network-surgery loop of `CDELFI.run`
  (lines 107-122): parameter dictionaries are association lists, the dict
  iteration order is the list order, and a missing key (`KeyError`) is `none`.
* `run` embeds the round loop of `CDELFI.run` (lines 100-135) over an abstract
  environment of collaborators (generator, trainer, posterior projection).
* `CDELFIpredict` embeds `CDELFI.predict` (lines 137-161); the stringly-typed
  dispatch `'Uniform' in str(type(prior))` is embedded via substring search on
  the prior's type name, and `raise NotImplemented` as an `Except.error`.
-/

/-! ## Python string primitives used by the source -/

/-- `leadsWith needle hay` is true when `needle` is an initial segment of
`hay` (character lists). -/
def leadsWith : List Char → List Char → Bool
  | [], _ => true
  | _ :: _, [] => false
  | a :: as, b :: bs => a = b && leadsWith as bs

/-- `occursIn needle hay` is true when `needle` occurs contiguously inside
`hay` (character lists). -/
def occursIn (needle : List Char) : List Char → Bool
  | [] => needle.isEmpty
  | c :: t => leadsWith needle (c :: t) || occursIn needle t

/-- Python's substring test `needle in hay` on strings. -/
def pyIn (needle hay : String) : Bool :=
  occursIn needle.toList hay.toList

/-! ## Parameter dictionaries

`params_dict` of a `NeuralNet` is embedded as an association list from
parameter names to (abstract, integer-valued) parameter blocks.  Python dict
iteration order is the list order. -/

/-- A network parameter dictionary: names mapped to (abstract) values. -/
abbrev Params := List (String × Int)

/-- Dictionary read `d[k]`: `none` is a `KeyError`. -/
def lookupP : Params → String → Option Int
  | [], _ => none
  | (k, v) :: ps, key => if k = key then some v else lookupP ps key

/-- Dictionary write `d[k] = v` for a key already present (the surgery loop
only writes keys of the new network's own dictionary). -/
def setParam (d : Params) (k : String) (v : Int) : Params :=
  d.map fun kv => if kv.1 = k then (k, v) else kv

/-- The keys of a dictionary, in iteration order. -/
def keysOf (d : Params) : List String := d.map Prod.fst

/-! ## Network surgery (`CDELFI.run`, lines 107-122)

```python
for p in [s for s in new_params if 'means' in s or 'precisions' in s]:
    new_params[p] = old_params[p[:-1] + '0']
self.network.params_dict = new_params
```
-/

/-- The source's component-parameter test `'means' in s or 'precisions' in s`. -/
def isCompKey (s : String) : Bool :=
  pyIn "means" s || pyIn "precisions" s

/-- The source's old-parameter lookup key `p[:-1] + '0'`. -/
def surgeryKey (p : String) : String :=
  p.dropRight 1 ++ "0"

/-- The surgery `for` loop: each selected key `p` of the new dictionary is
overwritten with `old_params[p[:-1] + '0']`; a missing old key is a
`KeyError` (`none`). -/
def surgeryLoop (oldP : Params) : List String → Params → Option Params
  | [], d => some d
  | p :: ps, d =>
    match lookupP oldP (surgeryKey p) with
    | none => none
    | some v => surgeryLoop oldP ps (setParam d p v)

/-- Network surgery: run the loop over the new network's keys that name
component means or precisions, starting from the new network's freshly
initialized dictionary. -/
def surgery (oldP newP : Params) : Option Params :=
  surgeryLoop oldP ((keysOf newP).filter isCompKey) newP

/-! Concrete snapshots exercising the surgery: a trained single-component
network (`cOldParams`) and a freshly instantiated two-component network
(`cNewParams`) with a different shared hidden-layer weight. -/

def cOldParams : Params :=
  [("h.W", 5), ("means.mW0", 1), ("precisions.mW0", 2)]

def cNewParams : Params :=
  [("h.W", 7), ("means.mW0", 10), ("means.mW1", 11),
   ("precisions.mW0", 12), ("precisions.mW1", 13)]

example : surgery cOldParams cNewParams =
    some [("h.W", 7), ("means.mW0", 1), ("means.mW1", 1),
          ("precisions.mW0", 2), ("precisions.mW1", 2)] := by decide

/-! ### Surgery characterization lemmas -/

theorem setParam_cons (a : String) (b : Int) (ps : Params) (k : String)
    (v : Int) :
    setParam ((a, b) :: ps) k v =
      (if a = k then (k, v) else (a, b)) :: setParam ps k v := rfl

theorem setParam_keysOf (d : Params) (k : String) (v : Int) :
    keysOf (setParam d k v) = keysOf d := by
  induction d with
  | nil => rfl
  | cons kv ps ih =>
    obtain ⟨a, b⟩ := kv
    rw [setParam_cons]
    by_cases h : a = k
    · subst h
      simp only [keysOf, List.map] at ih ⊢
      simp [ih]
    · rw [if_neg h]
      simp only [keysOf, List.map] at ih ⊢
      simp [ih]

theorem lookupP_setParam_self (d : Params) (k : String) (v : Int)
    (hk : k ∈ keysOf d) : lookupP (setParam d k v) k = some v := by
  induction d with
  | nil => simp [keysOf] at hk
  | cons kv ps ih =>
    obtain ⟨a, b⟩ := kv
    rw [setParam_cons]
    by_cases h : a = k
    · rw [if_pos h]; simp [lookupP]
    · rw [if_neg h]
      simp only [keysOf, List.map, List.mem_cons] at hk
      rcases hk with hk | hk
      · exact absurd hk.symm h
      · simp only [lookupP, if_neg h]
        exact ih hk

theorem lookupP_setParam_ne (d : Params) (k key : String) (v : Int)
    (h : key ≠ k) : lookupP (setParam d k v) key = lookupP d key := by
  induction d with
  | nil => rfl
  | cons kv ps ih =>
    obtain ⟨a, b⟩ := kv
    rw [setParam_cons]
    by_cases hkv : a = k
    · subst hkv
      rw [if_pos rfl]
      simp only [lookupP, if_neg (Ne.symm h)]
      exact ih
    · rw [if_neg hkv]
      by_cases hkey : a = key
      · simp [lookupP, hkey]
      · simp only [lookupP, if_neg hkey]
        exact ih

/-- After a successful run of the surgery loop, a key processed by the loop has
the old network's value at its surgery key, and every other key keeps the
starting dictionary's value. -/
theorem surgeryLoop_lookup (oldP : Params) :
    ∀ (ks : List String) (d res : Params),
      (∀ p ∈ ks, p ∈ keysOf d) →
      surgeryLoop oldP ks d = some res →
      ∀ k, lookupP res k =
        if k ∈ ks then lookupP oldP (surgeryKey k) else lookupP d k := by
  intro ks
  induction ks with
  | nil =>
    intro d res _ hres k
    simp only [surgeryLoop, Option.some.injEq] at hres
    simp [hres]
  | cons r rs ih =>
    intro d res hmem hres k
    simp only [surgeryLoop] at hres
    cases hv : lookupP oldP (surgeryKey r) with
    | none => simp [hv] at hres
    | some v =>
      rw [hv] at hres
      have hmem' : ∀ p ∈ rs, p ∈ keysOf (setParam d r v) := by
        intro p hp
        rw [setParam_keysOf]
        exact hmem p (List.mem_cons_of_mem _ hp)
      have hchar := ih (setParam d r v) res hmem' hres
      by_cases hk : k ∈ rs
      · simp [hchar k, hk, List.mem_cons]
      · by_cases hkr : k = r
        · subst hkr
          rw [hchar k]
          simp only [hk, if_false, List.mem_cons, true_or, if_true]
          rw [lookupP_setParam_self d k v (hmem k (List.mem_cons_self k rs)), hv]
        · rw [hchar k]
          simp only [hk, if_false, List.mem_cons, hkr, false_or, if_neg hk]
          exact lookupP_setParam_ne d r k v hkr

/-- The surgery loop fails (Python `KeyError`) whenever some processed key's
surgery key is absent from the old dictionary. -/
theorem surgeryLoop_fails (oldP : Params) :
    ∀ (ks : List String) (d : Params) (p : String), p ∈ ks →
      lookupP oldP (surgeryKey p) = none →
      surgeryLoop oldP ks d = none := by
  intro ks
  induction ks with
  | nil => intro d p hp; simp at hp
  | cons r rs ih =>
    intro d p hp hnone
    rcases List.mem_cons.mp hp with hp | hp
    · subst hp; simp [surgeryLoop, hnone]
    · cases hv : lookupP oldP (surgeryKey r) with
      | none => simp [surgeryLoop, hv]
      | some v => simpa [surgeryLoop, hv] using ih (setParam d r v) p hp hnone

/-! ## Loss construction (`CDELFI.loss`, lines 52-70)

```python
loss = -tt.mean(self.network.lprobs)
if self.svi:
    kl = svi_kl_zero(self.network.mps, self.network.sps, self.reg_lambda)
    loss = loss + 1 / N * kl
self.observables['loss.kl'] = kl
return loss
```

The network's mean log-density `tt.mean(self.network.lprobs)` and the value of
the external regularizer `svi_kl_zero(mps, sps, reg_lambda)` — the KL
divergence between the variational weight posterior and the zero-mean weight
prior with precision `reg_lambda` — are abstracted as rational parameters
`meanLprobs` and `klVal`.  The Python local `kl` is an `Option`: it is bound
only inside the `svi` branch, and the unconditional observables assignment
reads it, an `UnboundLocalError` when `svi` is false. -/

/-- The `loss` method.  Returns the loss value together with the `kl` value
stored into `observables`, or the runtime error. -/
def lossMethod (svi : Bool) (meanLprobs klVal : ℚ) (N : ℚ) :
    Except String (ℚ × ℚ) :=
  let loss0 : ℚ := -meanLprobs
  let klLocal : Option ℚ := if svi then some klVal else none
  let loss1 : ℚ :=
    match klLocal with
    | some kl => loss0 + 1 / N * kl
    | none => loss0
  match klLocal with
  | some kl => Except.ok (loss1, kl)
  | none => Except.error "UnboundLocalError: local variable kl referenced before assignment"

example : lossMethod true 2 6 3 = Except.ok (-2 + 1 / 3 * 6, 6) := rfl
example : (lossMethod false 2 6 3).isOk = false := rfl

/-! ## Posterior prediction (`CDELFI.predict`, lines 137-161)

The distribution objects and their arithmetic (`*`, `/`) are external
collaborators; they are abstracted as a type `Dist` with binary operations.
The stringly-typed dispatch `'Uniform' in str(type(self.generator.prior))` is
embedded through the prior's type-name string and `pyIn`.  The source's
`raise NotImplemented` aborts the call; the spec names this failure
`UnsupportedPriorKind`.  `predict` assigns no attribute of `self` or of the
generator, so it is embedded as a pure function of its inputs. -/

/-- Density multiplication and division provided by the distribution
library (external collaborator). -/
structure DistOps (Dist : Type) where
  mul : Dist → Dist → Dist
  div : Dist → Dist → Dist

/-- The generator state read by `predict`: the prior, the prior's type-name
string (for `str(type(prior))` dispatch), and the optional proposal. -/
structure Generator (Dist : Type) where
  prior : Dist
  priorTypeName : String
  proposal : Option Dist

/-- The failure of the density-correction step on an unsupported prior
family (`raise NotImplemented` in the source). -/
inductive PredictError where
  | unsupportedPriorKind
deriving DecidableEq

/-- The `predict` method.  `superPredict` is the inherited
`super().predict(x)`: the network's raw mixture-of-Gaussians proxy-posterior
at the input. -/
def CDELFIpredict {Dist X : Type} (ops : DistOps Dist) (gen : Generator Dist)
    (superPredict : X → Dist) (x : X) : Except PredictError Dist :=
  match gen.proposal with
  | none => Except.ok (superPredict x)
  | some proposal =>
    let mog := superPredict x
    if pyIn "Uniform" gen.priorTypeName then
      Except.ok (ops.div mog proposal)
    else if pyIn "Gaussian" gen.priorTypeName then
      Except.ok (ops.div (ops.mul mog gen.prior) proposal)
    else
      Except.error PredictError.unsupportedPriorKind

/-- Integer stand-ins for distribution arithmetic, for concrete witnesses. -/
def intOps : DistOps Int := { mul := fun a b => a * b, div := fun a b => a - b }

example :
    CDELFIpredict intOps
      { prior := 4, priorTypeName := "Uniform", proposal := some 9 }
      (fun x : Int => x + 1) 10 = Except.ok (11 - 9) := rfl

example :
    CDELFIpredict intOps
      { prior := 4, priorTypeName := "Gaussian", proposal := some 9 }
      (fun x : Int => x + 1) 10 = Except.ok (11 * 4 - 9) := rfl

/-! ## Constructor (`CDELFI.__init__`, lines 43-50)

```python
kwargs.update({'n_components': 1})
super().__init__(generator, seed=seed, **kwargs)
self.n_components = n_components
```
-/

/-- Keyword-argument dictionaries forwarded to the network constructor. -/
abbrev Kwargs := List (String × Nat)

def lookupKw : Kwargs → String → Option Nat
  | [], _ => none
  | (k, v) :: ps, key => if k = key then some v else lookupKw ps key

/-- Python `dict.update({k: v})`: replace the entry if the key is present,
otherwise append it. -/
def updateKw : Kwargs → String → Nat → Kwargs
  | [], k, v => [(k, v)]
  | (a, b) :: ps, k, v =>
    if a = k then (k, v) :: ps else (a, b) :: updateKw ps k v

/-- Modelled from the spec: `InferenceBase.__init__` (in
`delfi/inference/BaseInference.py`, not under `src/`) constructs the initial
`NeuralNet` from the forwarded kwargs, so the initial network's component
count is the `n_components` entry of the kwargs it receives. -/
def superInitNetComponents (kwargs : Kwargs) : ℕ :=
  (lookupKw kwargs "n_components").getD 1

/-- The attributes of a freshly constructed `CDELFI` instance that the claims
mention: the built network's component count and the stored
`self.n_components`. -/
structure CDELFIState where
  networkComponents : ℕ
  n_components : ℕ

/-- The `__init__` body: force `n_components = 1` in the kwargs, build the
network via the superclass, then store the requested final-round count. -/
def CDELFIinit (n_components : ℕ) (kwargs : Kwargs) : CDELFIState :=
  let kwargs2 := updateKw kwargs "n_components" 1
  { networkComponents := superInitNetComponents kwargs2,
    n_components := n_components }

theorem lookupKw_updateKw_self (ks : Kwargs) (k : String) (v : ℕ) :
    lookupKw (updateKw ks k v) k = some v := by
  induction ks with
  | nil => simp [updateKw, lookupKw]
  | cons kv ps ih =>
    obtain ⟨a, b⟩ := kv
    by_cases h : a = k
    · rw [updateKw, if_pos h]
      simp [lookupKw]
    · rw [updateKw, if_neg h]
      simp only [lookupKw, if_neg h]
      exact ih

/-! ## The round loop (`CDELFI.run`, lines 100-135)

The generator, the trainer, the posterior prediction/projection, and the
`NeuralNet` constructor are external collaborators threaded through an
abstract state `σ`. -/

/-- Modelled from the spec: the collaborators `run` calls — `self.gen`
(generator draw), the network's `params_dict` accessors, fresh `NeuralNet`
instantiation from the updated spec dict, `Trainer(...).train(...)`, and the
posterior-prediction / projection / proposal-update step (lines 131-133).
Only their shapes matter to the round-control claims. -/
structure Env (σ D L : Type) where
  gen : σ → D × σ
  netParams : σ → Params
  freshNet : σ → Params × σ
  setNetParams : σ → Params → σ
  train : σ → D → L × σ
  updateProposal : σ → σ

/-- One iteration of the `for r in range(1, n_rounds + 1)` body: draw data,
run the surgery when `r == n_rounds and self.n_components > 1` (propagating
its `KeyError`), train, then set the new proposal. -/
def roundStep {σ D L : Type} (env : Env σ D L) (nComponents nRounds r : ℕ)
    (s : σ) : Option (L × D × σ) :=
  let (data, s1) := env.gen s
  let s2o : Option σ :=
    if r = nRounds ∧ 1 < nComponents then
      let oldP := env.netParams s1
      let (newP, s1b) := env.freshNet s1
      match surgery oldP newP with
      | none => none
      | some p => some (env.setNetParams s1b p)
    else some s1
  match s2o with
  | none => none
  | some s2 =>
    let (log, s3) := env.train s2 data
    some (log, data, env.updateProposal s3)

/-- The round loop over the list of round numbers.  The Python loop appends
each round's log and dataset at the tail of the accumulating lists; consing
the head round's results onto the recursive call builds the same lists. -/
def runRounds {σ D L : Type} (env : Env σ D L) (nComponents nRounds : ℕ) :
    List ℕ → σ → Option (List L × List D × σ)
  | [], s => some ([], [], s)
  | r :: rs, s =>
    match roundStep env nComponents nRounds r s with
    | none => none
    | some (log, data, s2) =>
      match runRounds env nComponents nRounds rs s2 with
      | none => none
      | some (logs, ds, s3) => some (log :: logs, data :: ds, s3)

/-- `CDELFI.run`: iterate rounds `1 .. n_rounds` and return `(logs,
trn_datasets)`; `none` is an uncaught exception (e.g. the surgery's
`KeyError`). -/
def run {σ D L : Type} (env : Env σ D L) (nComponents nRounds : ℕ) (s : σ) :
    Option (List L × List D) :=
  match runRounds env nComponents nRounds (List.range' 1 nRounds) s with
  | none => none
  | some (logs, ds, _) => some (logs, ds)

/-- The collaborator state after rounds `1 .. k` have completed. -/
def stateAfter {σ D L : Type} (env : Env σ D L) (nComponents nRounds : ℕ)
    (s : σ) : ℕ → Option σ
  | 0 => some s
  | k + 1 =>
    match stateAfter env nComponents nRounds s k with
    | none => none
    | some sk =>
      match roundStep env nComponents nRounds (k + 1) sk with
      | none => none
      | some x => some x.2.2

/-- A successful run of rounds `k+1 .. k+m`, started from the state reached
after rounds `1 .. k`, yields one log and one dataset per round; the `j`-th
entries are the ones produced by round `k+j+1` from the state after the
preceding rounds. -/
theorem runRounds_range' {σ D L : Type} (env : Env σ D L) (nC nR : ℕ)
    (s : σ) :
    ∀ (m k : ℕ) (sk : σ) (logs : List L) (ds : List D) (s2 : σ),
      stateAfter env nC nR s k = some sk →
      runRounds env nC nR (List.range' (k + 1) m) sk = some (logs, ds, s2) →
      logs.length = m ∧ ds.length = m ∧
      ∀ j, j < m → ∃ sj lj dj sj2,
        stateAfter env nC nR s (k + j) = some sj ∧
        roundStep env nC nR (k + j + 1) sj = some (lj, dj, sj2) ∧
        logs.get? j = some lj ∧ ds.get? j = some dj := by
  intro m
  induction m with
  | zero =>
    intro k sk logs ds s2 _ hrun
    simp only [List.range', runRounds, Option.some.injEq, Prod.mk.injEq] at hrun
    obtain ⟨rfl, rfl, rfl⟩ := hrun
    exact ⟨rfl, rfl, fun j hj => absurd hj (by omega)⟩
  | succ m ih =>
    intro k sk logs ds s2 hstate hrun
    rw [List.range'_succ] at hrun
    cases hstep : roundStep env nC nR (k + 1) sk with
    | none => simp [runRounds, hstep] at hrun
    | some x =>
      obtain ⟨l, d, s'⟩ := x
      cases hrest : runRounds env nC nR (List.range' (k + 1 + 1) m) s' with
      | none => simp [runRounds, hstep, hrest] at hrun
      | some y =>
        obtain ⟨logs', ds', s3⟩ := y
        simp only [runRounds, hstep, hrest, Option.some.injEq,
          Prod.mk.injEq] at hrun
        obtain ⟨rfl, rfl, rfl⟩ := hrun
        have hstate' : stateAfter env nC nR s (k + 1) = some s' := by
          simp [stateAfter, hstate, hstep]
        obtain ⟨hlen1, hlen2, hj⟩ := ih (k + 1) s' logs' ds' s3 hstate' hrest
        refine ⟨by simp [hlen1], by simp [hlen2], ?_⟩
        intro j hjm
        cases j with
        | zero =>
          exact ⟨sk, l, d, s', hstate, hstep, rfl, rfl⟩
        | succ jj =>
          obtain ⟨sj, lj, dj, sj2, h1, h2, h3, h4⟩ := hj jj (by omega)
          refine ⟨sj, lj, dj, sj2, ?_, ?_, by simpa using h3, by simpa using h4⟩
          · have harith : k + 1 + jj = k + (jj + 1) := by omega
            rwa [harith] at h1
          · have harith : k + 1 + jj + 1 = k + (jj + 1) + 1 := by omega
            rwa [harith] at h2

/-! ## Component-parameter naming (for the surgery index-range analysis) -/

/-- Modelled from the spec: the `NeuralNet` parameter dictionary (the network
code is not under `src/`) keys each mixture component's mean and precision
parameters by the decimal component index as the name's suffix, one block per
component, alongside non-indexed shared parameters; a fresh `n`-component
network has keys `h.W`, `means.mW0`, ..., `means.mW(n-1)`, `precisions.mW0`,
..., `precisions.mW(n-1)`. -/
def freshNetParams (n : ℕ) : Params :=
  [("h.W", 0)]
    ++ ((List.range n).map fun i => ("means.mW" ++ toString i, 0))
    ++ ((List.range n).map fun i => ("precisions.mW" ++ toString i, 0))

example : freshNetParams 2 =
    [("h.W", 0), ("means.mW0", 0), ("means.mW1", 0),
     ("precisions.mW0", 0), ("precisions.mW1", 0)] := by decide

/-- With eleven or more components the fresh network contains the key
`means.mW10`; its surgery key `means.mW10[:-1] + '0' = means.mW10` misses the
single-component snapshot, a `KeyError`. -/
theorem surgery_fresh_none (n : ℕ) (hn : 11 ≤ n) :
    surgery cOldParams (freshNetParams n) = none := by
  have hpair : ("means.mW10", (0 : Int)) ∈ freshNetParams n := by
    unfold freshNetParams
    refine List.mem_append.mpr (Or.inl (List.mem_append.mpr (Or.inr ?_)))
    refine List.mem_map.mpr ⟨10, List.mem_range.mpr (by omega), ?_⟩
    decide
  have hkey : "means.mW10" ∈ (keysOf (freshNetParams n)).filter isCompKey := by
    refine List.mem_filter.mpr ⟨?_, by decide⟩
    exact List.mem_map.mpr ⟨_, hpair, rfl⟩
  exact surgeryLoop_fails cOldParams _ (freshNetParams n) "means.mW10" hkey
    (by decide)

example : ∀ n, n ≤ 10 → (surgery cOldParams (freshNetParams n)).isSome = true := by
  decide

/-! Concrete collaborator environments over a counter state, used to evaluate
the round loop on closed inputs.  `freshNet` hands out a fresh `n`-component
dictionary and `netParams` reads the trained single-component snapshot. -/

def cEnvN (n : ℕ) : Env ℕ ℕ ℕ where
  gen := fun s => (s, s + 1)
  netParams := fun _ => cOldParams
  freshNet := fun s => (freshNetParams n, s)
  setNetParams := fun s _ => s
  train := fun s d => (s + d, s + 1)
  updateProposal := fun s => s

example : run (cEnvN 2) 2 2 0 = some ([1, 5], [0, 2]) := by decide

/-- With eleven or more requested components, the run aborts: the final-round
surgery raises `KeyError` and `run` propagates it. -/
theorem run_fresh_none (n : ℕ) (hn : 11 ≤ n) :
    run (cEnvN n) n 1 0 = none := by
  have hs : surgery cOldParams (freshNetParams n) = none :=
    surgery_fresh_none n hn
  have hlt : 1 < n := by omega
  simp [run, runRounds, roundStep, cEnvN, hs, hlt, List.range']

/-! ## Claim theorems -/

/-- C1 counterexample: the surgery succeeds on a concrete old/new snapshot
pair, yet the non-component-indexed parameter `h.W` of the result holds the
fresh network's value 7, not the old snapshot's value 5 — it is not copied
verbatim from the old network, so the new network's density function need not
equal the old one's. -/
theorem C1_counterexample :
    surgery cOldParams cNewParams =
      some [("h.W", 7), ("means.mW0", 1), ("means.mW1", 1),
            ("precisions.mW0", 2), ("precisions.mW1", 2)] ∧
    lookupP cOldParams "h.W" = some 5 ∧
    ¬ lookupP [("h.W", 7), ("means.mW0", 1), ("means.mW1", 1),
            ("precisions.mW0", 2), ("precisions.mW1", 2)] "h.W" =
        lookupP cOldParams "h.W" := by decide

/-- C1 (amended): after a successful surgery, every parameter whose name
contains `means` or `precisions` (every component index, 0 included; for a
single-digit index `i > 0` this is component 0's same-shaped block) holds the
old network's value at the name with its last character replaced by `0`, and
every other parameter keeps the freshly instantiated network's value — the
non-component-indexed parameters are not copied from the old snapshot, so the
old density function is preserved only when the fresh shared parameters happen
to coincide with the old ones. -/
theorem C1_surgery_params (oldP newP res : Params)
    (h : surgery oldP newP = some res) :
    ∀ k, lookupP res k =
      if isCompKey k = true ∧ k ∈ keysOf newP then
        lookupP oldP (surgeryKey k)
      else lookupP newP k := by
  intro k
  unfold surgery at h
  have hchar := surgeryLoop_lookup oldP ((keysOf newP).filter isCompKey) newP
    res (fun p hp => (List.mem_filter.mp hp).1) h k
  rw [hchar]
  by_cases hk : isCompKey k = true ∧ k ∈ keysOf newP
  · rw [if_pos hk, if_pos (List.mem_filter.mpr ⟨hk.2, hk.1⟩)]
  · rw [if_neg hk,
      if_neg (fun hc =>
        hk ⟨(List.mem_filter.mp hc).2, (List.mem_filter.mp hc).1⟩)]

/-- C1 amended claim evaluated on the concrete snapshots at the duplicated
component-1 mean parameter. -/
theorem C1_surgery_params_witness :
    lookupP [("h.W", 7), ("means.mW0", 1), ("means.mW1", 1),
             ("precisions.mW0", 2), ("precisions.mW1", 2)] "means.mW1" =
      if isCompKey "means.mW1" = true ∧ "means.mW1" ∈ keysOf cNewParams then
        lookupP cOldParams (surgeryKey "means.mW1")
      else lookupP cNewParams "means.mW1" :=
  C1_surgery_params cOldParams cNewParams
    [("h.W", 7), ("means.mW0", 1), ("means.mW1", 1),
     ("precisions.mW0", 2), ("precisions.mW1", 2)] (by decide) "means.mW1"

/-- C2: with svi disabled the loss method does not return the negative mean
log-density — for every input it fails, because the unconditional
`observables['loss.kl'] = kl` assignment reads the local `kl` that only the
svi branch binds (an `UnboundLocalError` at runtime). -/
theorem C2_loss_svi_disabled_fails (meanLprobs klVal N : ℚ) :
    lossMethod false meanLprobs klVal N =
      Except.error
        "UnboundLocalError: local variable kl referenced before assignment" :=
  rfl

/-- C3: with the proposal set and a prior whose type name is neither in the
Uniform nor in the Gaussian family, predict raises the unsupported-prior-kind
error (the source's `raise NotImplemented`); the method body assigns no
attribute, so it is a pure function of its inputs and mutates neither the
prior, the proposal, nor the proxy-posterior. -/
theorem C3_predict_unsupported_prior {Dist X : Type} (ops : DistOps Dist)
    (gen : Generator Dist) (superPredict : X → Dist) (x : X) (prop : Dist)
    (hprop : gen.proposal = some prop)
    (hu : pyIn "Uniform" gen.priorTypeName = false)
    (hg : pyIn "Gaussian" gen.priorTypeName = false) :
    CDELFIpredict ops gen superPredict x =
      Except.error PredictError.unsupportedPriorKind := by
  unfold CDELFIpredict
  rw [hprop]
  simp [hu, hg]

/-- C3 evaluated at a concrete unsupported (Students-t) prior family. -/
theorem C3_predict_unsupported_prior_witness :
    CDELFIpredict intOps
      { prior := 4, priorTypeName := "StudentsT", proposal := some 9 }
      (fun x : Int => x + 1) 10 =
      Except.error PredictError.unsupportedPriorKind :=
  C3_predict_unsupported_prior intOps
    { prior := 4, priorTypeName := "StudentsT", proposal := some 9 }
    (fun x : Int => x + 1) 10 9 rfl (by decide) (by decide)

/-- C4: with the proposal set and a Gaussian-family prior (type name
containing `Gaussian`, not `Uniform`), predict returns the proxy-posterior
multiplied by the prior and then divided by the proposal. -/
theorem C4_predict_gaussian_prior {Dist X : Type} (ops : DistOps Dist)
    (gen : Generator Dist) (superPredict : X → Dist) (x : X) (prop : Dist)
    (hprop : gen.proposal = some prop)
    (hu : pyIn "Uniform" gen.priorTypeName = false)
    (hg : pyIn "Gaussian" gen.priorTypeName = true) :
    CDELFIpredict ops gen superPredict x =
      Except.ok (ops.div (ops.mul (superPredict x) gen.prior) prop) := by
  unfold CDELFIpredict
  rw [hprop]
  simp [hu, hg]

/-- C4 evaluated at a concrete Gaussian prior over integer stand-ins. -/
theorem C4_predict_gaussian_prior_witness :
    CDELFIpredict intOps
      { prior := 4, priorTypeName := "Gaussian", proposal := some 9 }
      (fun x : Int => x + 1) 10 = Except.ok ((10 + 1) * 4 - 9) :=
  C4_predict_gaussian_prior intOps
    { prior := 4, priorTypeName := "Gaussian", proposal := some 9 }
    (fun x : Int => x + 1) 10 9 rfl (by decide) (by decide)

/-- C5: with the proposal set and a Uniform-family prior (type name containing
`Uniform`), predict returns the proxy-posterior divided by the proposal, with
no multiplication by the prior. -/
theorem C5_predict_uniform_prior {Dist X : Type} (ops : DistOps Dist)
    (gen : Generator Dist) (superPredict : X → Dist) (x : X) (prop : Dist)
    (hprop : gen.proposal = some prop)
    (hu : pyIn "Uniform" gen.priorTypeName = true) :
    CDELFIpredict ops gen superPredict x =
      Except.ok (ops.div (superPredict x) prop) := by
  unfold CDELFIpredict
  rw [hprop]
  simp [hu]

/-- C5 evaluated at a concrete Uniform prior over integer stand-ins. -/
theorem C5_predict_uniform_prior_witness :
    CDELFIpredict intOps
      { prior := 4, priorTypeName := "Uniform", proposal := some 9 }
      (fun x : Int => x + 1) 10 = Except.ok ((10 + 1) - 9) :=
  C5_predict_uniform_prior intOps
    { prior := 4, priorTypeName := "Uniform", proposal := some 9 }
    (fun x : Int => x + 1) 10 9 rfl (by decide)

/-- C6: with the proposal unset, predict returns the network's raw
proxy-posterior at the input unchanged, whatever the prior's family. -/
theorem C6_predict_no_proposal {Dist X : Type} (ops : DistOps Dist)
    (gen : Generator Dist) (superPredict : X → Dist) (x : X)
    (hprop : gen.proposal = none) :
    CDELFIpredict ops gen superPredict x = Except.ok (superPredict x) := by
  unfold CDELFIpredict
  rw [hprop]

/-- C6 evaluated at a concrete generator with no proposal. -/
theorem C6_predict_no_proposal_witness :
    CDELFIpredict intOps
      { prior := 4, priorTypeName := "StudentsT", proposal := none }
      (fun x : Int => x + 1) 10 = Except.ok (10 + 1) :=
  C6_predict_no_proposal intOps
    { prior := 4, priorTypeName := "StudentsT", proposal := none }
    (fun x : Int => x + 1) 10 rfl

/-- C7: with svi enabled the loss is the negative mean log-density plus `1/N`
times the KL value — the regularizer between the variational weight posterior
and the zero-mean weight prior with precision `reg_lambda`, whose value
`klVal` here abstracts — and at `2 * N` the regularizer contribution is
exactly half the contribution at `N`, the KL value held fixed. -/
theorem C7_loss_svi_scaling (meanLprobs klVal N : ℚ) (hN : 0 < N) :
    lossMethod true meanLprobs klVal N =
      Except.ok (-meanLprobs + 1 / N * klVal, klVal) ∧
    lossMethod true meanLprobs klVal (2 * N) =
      Except.ok (-meanLprobs + 1 / 2 * (1 / N * klVal), klVal) := by
  have hNe : N ≠ 0 := ne_of_gt hN
  refine ⟨rfl, ?_⟩
  show Except.ok (-meanLprobs + 1 / (2 * N) * klVal, klVal) = _
  rw [show (1 : ℚ) / (2 * N) * klVal = 1 / 2 * (1 / N * klVal) by
    field_simp]

/-- C7 evaluated at a concrete sample count and KL value. -/
theorem C7_loss_svi_scaling_witness :
    lossMethod true 0 4 1 = Except.ok (-0 + 1 / 1 * 4, 4) ∧
    lossMethod true 0 4 (2 * 1) = Except.ok (-0 + 1 / 2 * (1 / 1 * 4), 4) :=
  C7_loss_svi_scaling 0 4 1 (by norm_num)

/-- C8: for every round count `R ≥ 1`, when `run` returns (every collaborator
call and the surgery succeeding), the returned log and dataset sequences each
have exactly `R` entries, and the `i`-th entries are exactly the ones produced
by round `i + 1` acting on the state left by the preceding rounds. -/
theorem C8_run_round_sequences {σ D L : Type} (env : Env σ D L)
    (nC nR : ℕ) (s : σ) (logs : List L) (ds : List D) (hR : 1 ≤ nR)
    (h : run env nC nR s = some (logs, ds)) :
    logs.length = nR ∧ ds.length = nR ∧
    ∀ i, i < nR → ∃ si li di si2,
      stateAfter env nC nR s i = some si ∧
      roundStep env nC nR (i + 1) si = some (li, di, si2) ∧
      logs.get? i = some li ∧ ds.get? i = some di := by
  unfold run at h
  cases hrr : runRounds env nC nR (List.range' 1 nR) s with
  | none => rw [hrr] at h; simp at h
  | some y =>
    obtain ⟨logs2, ds2, s2⟩ := y
    rw [hrr] at h
    simp only [Option.some.injEq, Prod.mk.injEq] at h
    obtain ⟨rfl, rfl⟩ := h
    obtain ⟨h1, h2, h3⟩ :=
      runRounds_range' env nC nR s nR 0 s logs2 ds2 s2 rfl hrr
    refine ⟨h1, h2, fun i hi => ?_⟩
    obtain ⟨si, li, di, si2, a1, a2, a3, a4⟩ := h3 i hi
    rw [Nat.zero_add] at a1 a2
    exact ⟨si, li, di, si2, a1, a2, a3, a4⟩

/-- C8 evaluated on a concrete two-round run (with a successful final-round
surgery to two components). -/
theorem C8_run_round_sequences_witness :
    ([1, 5] : List ℕ).length = 2 ∧ ([0, 2] : List ℕ).length = 2 ∧
    ∀ i, i < 2 → ∃ si li di si2,
      stateAfter (cEnvN 2) 2 2 0 i = some si ∧
      roundStep (cEnvN 2) 2 2 (i + 1) si = some (li, di, si2) ∧
      ([1, 5] : List ℕ).get? i = some li ∧
      ([0, 2] : List ℕ).get? i = some di :=
  C8_run_round_sequences (cEnvN 2) 2 2 0 [1, 5] [0, 2] (by decide) (by decide)

/-- C9: whatever `n_components` value the caller passes in the kwargs, the
constructor overrides it to 1 before building the network, so the initial
network has exactly one mixture component; the requested final-round count is
stored only in the separate `self.n_components` attribute. -/
theorem C9_init_single_component (n_components : ℕ) (kwargs : Kwargs) :
    (CDELFIinit n_components kwargs).networkComponents = 1 ∧
    (CDELFIinit n_components kwargs).n_components = n_components := by
  refine ⟨?_, rfl⟩
  show (lookupKw (updateKw kwargs "n_components" 1) "n_components").getD 1 = 1
  rw [lookupKw_updateKw_self]
  rfl

/-- C10: under the decimal-suffix naming scheme the surgery lookup
`old_params[p[:-1] + '0']` succeeds only for single-digit component indices:
for every requested count of at least 11 the two-digit-indexed key
`means.mW10` misses the single-component snapshot (`KeyError`, which `run`
propagates), while every count up to 10 succeeds. -/
theorem C10_surgery_index_range :
    (∀ n, 11 ≤ n → surgery cOldParams (freshNetParams n) = none ∧
        run (cEnvN n) n 1 0 = none) ∧
    (∀ n, n ≤ 10 → (surgery cOldParams (freshNetParams n)).isSome = true) := by
  refine ⟨fun n hn => ⟨surgery_fresh_none n hn, run_fresh_none n hn⟩, ?_⟩
  decide

/-- C10 evaluated at the boundary counts 11 and 10. -/
theorem C10_surgery_index_range_witness :
    (surgery cOldParams (freshNetParams 11) = none ∧
      run (cEnvN 11) 11 1 0 = none) ∧
    (surgery cOldParams (freshNetParams 10)).isSome = true :=
  ⟨C10_surgery_index_range.1 11 (by norm_num),
   C10_surgery_index_range.2 10 (by norm_num)⟩
